import Mathlib

/-!
Verification development for the scholargy backend's next-steps pipeline.

The development shallowly embeds the recommendation-generation core
(`getNextSteps` in the service module) and the `POST /next-steps` route of
`routes/dashboard.js`.  JavaScript JSON values are modelled by `JsonValue`,
`JSON.parse` by a fuel-based parser `jsonParse`, `JSON.stringify` by
`jsonStringify`, and JavaScript truthiness / property access by `truthy` and
`jsGetField`.  The external reasoning service is modelled as a value of
`ServiceOutcome` (either a response object or a thrown fault), or, where a
deterministic stub is required, as a function from the composed chat request
to a `ServiceOutcome`.
-/

namespace Scholargy

/-- JSON values as produced by `JSON.parse`.  Numbers keep their source
lexeme (the claims under study never compute with numeric values parsed
from service output). -/
inductive JsonValue where
  | null : JsonValue
  | bool (b : Bool) : JsonValue
  | num (lexeme : String) : JsonValue
  | str (s : String) : JsonValue
  | arr (elems : List JsonValue) : JsonValue
  | obj (fields : List (String × JsonValue)) : JsonValue
deriving Repr

mutual

def JsonValue.beq : JsonValue → JsonValue → Bool
  | .null, .null => true
  | .bool a, .bool b => a == b
  | .num a, .num b => a == b
  | .str a, .str b => a == b
  | .arr a, .arr b => JsonValue.beqList a b
  | .obj a, .obj b => JsonValue.beqFields a b
  | _, _ => false

def JsonValue.beqList : List JsonValue → List JsonValue → Bool
  | [], [] => true
  | a :: as, b :: bs => JsonValue.beq a b && JsonValue.beqList as bs
  | _, _ => false

def JsonValue.beqFields : List (String × JsonValue) → List (String × JsonValue) → Bool
  | [], [] => true
  | (k, v) :: as, (k2, v2) :: bs => k == k2 && JsonValue.beq v v2 && JsonValue.beqFields as bs
  | _, _ => false

end

mutual

theorem JsonValue.beq_iff : ∀ a b : JsonValue, JsonValue.beq a b = true ↔ a = b
  | .null, .null => by simp [JsonValue.beq]
  | .bool a, .bool b => by simp [JsonValue.beq]
  | .num a, .num b => by simp [JsonValue.beq]
  | .str a, .str b => by simp [JsonValue.beq]
  | .arr a, .arr b => by
      simp only [JsonValue.beq, JsonValue.arr.injEq]
      exact JsonValue.beqList_iff a b
  | .obj a, .obj b => by
      simp only [JsonValue.beq, JsonValue.obj.injEq]
      exact JsonValue.beqFields_iff a b
  | .null, .bool _ | .null, .num _ | .null, .str _ | .null, .arr _ | .null, .obj _
  | .bool _, .null | .bool _, .num _ | .bool _, .str _ | .bool _, .arr _ | .bool _, .obj _
  | .num _, .null | .num _, .bool _ | .num _, .str _ | .num _, .arr _ | .num _, .obj _
  | .str _, .null | .str _, .bool _ | .str _, .num _ | .str _, .arr _ | .str _, .obj _
  | .arr _, .null | .arr _, .bool _ | .arr _, .num _ | .arr _, .str _ | .arr _, .obj _
  | .obj _, .null | .obj _, .bool _ | .obj _, .num _ | .obj _, .str _ | .obj _, .arr _ => by
      simp [JsonValue.beq]

theorem JsonValue.beqList_iff : ∀ a b : List JsonValue, JsonValue.beqList a b = true ↔ a = b
  | [], [] => by simp [JsonValue.beqList]
  | a :: as, b :: bs => by
      simp only [JsonValue.beqList, Bool.and_eq_true, List.cons.injEq]
      exact and_congr (JsonValue.beq_iff a b) (JsonValue.beqList_iff as bs)
  | [], _ :: _ => by simp [JsonValue.beqList]
  | _ :: _, [] => by simp [JsonValue.beqList]

theorem JsonValue.beqFields_iff :
    ∀ a b : List (String × JsonValue), JsonValue.beqFields a b = true ↔ a = b
  | [], [] => by simp [JsonValue.beqFields]
  | (k, v) :: as, (k2, v2) :: bs => by
      simp only [JsonValue.beqFields, Bool.and_eq_true, List.cons.injEq, Prod.mk.injEq]
      constructor
      · rintro ⟨⟨h1, h2⟩, h3⟩
        exact ⟨⟨by simpa using h1, (JsonValue.beq_iff v v2).mp h2⟩,
          (JsonValue.beqFields_iff as bs).mp h3⟩
      · rintro ⟨⟨h1, h2⟩, h3⟩
        exact ⟨⟨by simp [h1], (JsonValue.beq_iff v v2).mpr h2⟩,
          (JsonValue.beqFields_iff as bs).mpr h3⟩
  | [], _ :: _ => by simp [JsonValue.beqFields]
  | _ :: _, [] => by simp [JsonValue.beqFields]

end

instance : DecidableEq JsonValue := fun a b =>
  decidable_of_iff (JsonValue.beq a b = true) (JsonValue.beq_iff a b)

/-- JSON whitespace characters accepted between tokens by `JSON.parse`. -/
def isJsonWs (c : Char) : Bool :=
  c = ' ' || c = '\t' || c = '\n' || c = '\r'

/-- Skip leading JSON whitespace. -/
def skipWs : List Char → List Char
  | [] => []
  | c :: cs => if isJsonWs c then skipWs cs else c :: cs

/-- Value of a hexadecimal digit, if the character is one. -/
def hexDigit (c : Char) : Option Nat :=
  if '0' ≤ c ∧ c ≤ '9' then some (c.toNat - '0'.toNat)
  else if 'a' ≤ c ∧ c ≤ 'f' then some (c.toNat - 'a'.toNat + 10)
  else if 'A' ≤ c ∧ c ≤ 'F' then some (c.toNat - 'A'.toNat + 10)
  else none

/-- Translation of a single-character JSON string escape. -/
def escapeChar (c : Char) : Option Char :=
  if c = '"' then some '"'
  else if c = '\\' then some '\\'
  else if c = '/' then some '/'
  else if c = 'b' then some (Char.ofNat 8)
  else if c = 'f' then some (Char.ofNat 12)
  else if c = 'n' then some '\n'
  else if c = 'r' then some '\r'
  else if c = 't' then some '\t'
  else none

/-- Parse the body of a JSON string literal (after the opening quote),
returning the decoded characters and the remaining input after the closing
quote.  `fuel` bounds recursion; one character is consumed per step. -/
def parseStringBody : Nat → List Char → Option (List Char × List Char)
  | 0, _ => none
  | _, [] => none
  | fuel + 1, c :: cs =>
    if c = '"' then some ([], cs)
    else if c = '\\' then
      match cs with
      | [] => none
      | e :: cs2 =>
        if e = 'u' then
          match cs2 with
          | h1 :: h2 :: h3 :: h4 :: cs3 =>
            match hexDigit h1, hexDigit h2, hexDigit h3, hexDigit h4 with
            | some a, some b, some c3, some d =>
              match parseStringBody fuel cs3 with
              | some (tail, rest) =>
                some (Char.ofNat (4096 * a + 256 * b + 16 * c3 + d) :: tail, rest)
              | none => none
            | _, _, _, _ => none
          | _ => none
        else
          match escapeChar e with
          | some ch =>
            match parseStringBody fuel cs2 with
            | some (tail, rest) => some (ch :: tail, rest)
            | none => none
          | none => none
    else if c.toNat < 32 then none
    else
      match parseStringBody fuel cs with
      | some (tail, rest) => some (c :: tail, rest)
      | none => none

/-- Parse a JSON number lexeme (sign, integer part with no leading zeros,
optional fraction, optional exponent), returning the lexeme characters and
the remaining input. -/
def parseNumberLexeme (l : List Char) : Option (List Char × List Char) :=
  let (sgn, l1) :=
    match l with
    | c :: cs => if c = '-' then ([c], cs) else (([] : List Char), l)
    | [] => ([], l)
  match l1 with
  | [] => none
  | c :: cs =>
    if ¬ c.isDigit then none
    else
      let (intPart, l2) :=
        if c = '0' then ([c], cs)
        else l1.span Char.isDigit
      if (c == '0') && (match cs with | d :: _ => d.isDigit | [] => false) then none
      else
        let (fracPart, l3) :=
          match l2 with
          | '.' :: ds =>
            let (digs, rest) := ds.span Char.isDigit
            if digs.isEmpty then (none, l2) else (some ('.' :: digs), rest)
          | _ => (none, l2)
        match fracPart, l2 with
        | none, '.' :: _ => none
        | _, _ =>
          let (expPart, l4) :=
            match l3 with
            | e :: es =>
              if e = 'e' ∨ e = 'E' then
                let (esgn, es2) :=
                  match es with
                  | s :: ss => if s = '+' ∨ s = '-' then ([s], ss) else (([] : List Char), es)
                  | [] => ([], es)
                let (digs, rest) := es2.span Char.isDigit
                if digs.isEmpty then (none, l3) else (some (e :: (esgn ++ digs)), rest)
              else (none, l3)
            | [] => (none, l3)
          match expPart, l3 with
          | none, e :: _ =>
            if e = 'e' ∨ e = 'E' then none
            else some (sgn ++ intPart ++ (fracPart.getD []) ++ [], l3)
          | none, [] => some (sgn ++ intPart ++ (fracPart.getD []), l3)
          | some ex, _ => some (sgn ++ intPart ++ (fracPart.getD []) ++ ex, l4)

/-- Check that the input starts with the given characters and return the rest. -/
def expectChars : List Char → List Char → Option (List Char)
  | [], l => some l
  | c :: cs, d :: ds => if c = d then expectChars cs ds else none
  | _ :: _, [] => none

mutual

/-- Parse one JSON value.  Mirrors `JSON.parse`'s grammar; `fuel` bounds
recursion depth and is decremented on every recursive call. -/
def parseValue : Nat → List Char → Option (JsonValue × List Char)
  | 0, _ => none
  | fuel + 1, l =>
    match skipWs l with
    | [] => none
    | c :: cs =>
      if c = 'n' then
        match expectChars ['u', 'l', 'l'] cs with
        | some rest => some (JsonValue.null, rest)
        | none => none
      else if c = 't' then
        match expectChars ['r', 'u', 'e'] cs with
        | some rest => some (JsonValue.bool true, rest)
        | none => none
      else if c = 'f' then
        match expectChars ['a', 'l', 's', 'e'] cs with
        | some rest => some (JsonValue.bool false, rest)
        | none => none
      else if c = '"' then
        match parseStringBody (cs.length + 1) cs with
        | some (content, rest) => some (JsonValue.str (String.mk content), rest)
        | none => none
      else if c = '[' then
        match skipWs cs with
        | ']' :: rest => some (JsonValue.arr [], rest)
        | _ => parseElems fuel cs []
      else if c = Char.ofNat 123 then
        match skipWs cs with
        | d :: rest =>
          if d = Char.ofNat 125 then some (JsonValue.obj [], rest)
          else parseMembers fuel cs []
        | [] => none
      else
        match parseNumberLexeme (c :: cs) with
        | some (lexeme, rest) => some (JsonValue.num (String.mk lexeme), rest)
        | none => none

/-- Parse the elements of a JSON array after the opening bracket (the array
is known to be non-empty).  `acc` holds elements parsed so far, reversed. -/
def parseElems : Nat → List Char → List JsonValue → Option (JsonValue × List Char)
  | 0, _, _ => none
  | fuel + 1, l, acc =>
    match parseValue fuel l with
    | some (v, rest) =>
      match skipWs rest with
      | ',' :: r2 => parseElems fuel r2 (v :: acc)
      | ']' :: r2 => some (JsonValue.arr (v :: acc).reverse, r2)
      | _ => none
    | none => none

/-- Parse the members of a JSON object after the opening brace (the object
is known to be non-empty).  `acc` holds members parsed so far, reversed. -/
def parseMembers : Nat → List Char → List (String × JsonValue) →
    Option (JsonValue × List Char)
  | 0, _, _ => none
  | fuel + 1, l, acc =>
    match skipWs l with
    | '"' :: cs =>
      match parseStringBody (cs.length + 1) cs with
      | some (key, rest) =>
        match skipWs rest with
        | ':' :: r2 =>
          match parseValue fuel r2 with
          | some (v, r3) =>
            match skipWs r3 with
            | ',' :: r4 => parseMembers fuel r4 ((String.mk key, v) :: acc)
            | d :: r4 =>
              if d = Char.ofNat 125 then
                some (JsonValue.obj ((String.mk key, v) :: acc).reverse, r4)
              else none
            | [] => none
          | none => none
        | _ => none
      | none => none
    | _ => none

end

/-- Model of `JSON.parse` applied to a string: `some v` when the string is
valid JSON denoting `v`, `none` when `JSON.parse` would throw. -/
def jsonParse (s : String) : Option JsonValue :=
  match parseValue (2 * s.length + 2) s.data with
  | some (v, rest) => if skipWs rest = [] then some v else none
  | none => none

/-- Whether a JSON number lexeme denotes the number zero (its mantissa has
no nonzero digit); used for JavaScript truthiness. -/
def numLexemeIsZero (s : String) : Bool :=
  let l := if s.data.head? = some '-' then s.data.tail else s.data
  let mantissa := l.takeWhile (fun c => c ≠ 'e' ∧ c ≠ 'E')
  mantissa.all (fun c => c = '0' ∨ c = '.')

/-- JavaScript truthiness of a parsed JSON value: `null`, `false`, `0` and
`""` are falsy; every object and array (empty ones included) is truthy. -/
def truthy : JsonValue → Bool
  | .null => false
  | .bool b => b
  | .num lex => ¬ numLexemeIsZero lex
  | .str s => ¬ s.isEmpty
  | .arr _ => true
  | .obj _ => true

/-- Truthiness of a possibly-undefined JavaScript value (`none` models
`undefined`). -/
def truthyOpt : Option JsonValue → Bool
  | none => false
  | some v => truthy v

/-- JavaScript property access `v.key`: throws a `TypeError` on `null`
(modelled by `Except.error`), looks the key up on objects (later duplicate
keys shadow earlier ones, as after `JSON.parse`), and yields `undefined`
(modelled by `Except.ok none`) on every other value. -/
def jsGetField : JsonValue → String → Except Unit (Option JsonValue)
  | .null, _ => .error ()
  | .obj fields, key => .ok (fields.reverse.lookup key)
  | _, _ => .ok none

/-- Hex digit character for a value below 16. -/
def hexChar (n : Nat) : Char :=
  if n < 10 then Char.ofNat ('0'.toNat + n)
  else Char.ofNat ('a'.toNat + (n - 10))

/-- JSON string-literal encoding of one character, as `JSON.stringify`
produces it. -/
def stringifyChar (c : Char) : List Char :=
  if c = '"' then ['\\', '"']
  else if c = '\\' then ['\\', '\\']
  else if c = '\n' then ['\\', 'n']
  else if c = '\r' then ['\\', 'r']
  else if c = '\t' then ['\\', 't']
  else if c = Char.ofNat 8 then ['\\', 'b']
  else if c = Char.ofNat 12 then ['\\', 'f']
  else if c.toNat < 32 then
    ['\\', 'u', '0', '0', hexChar (c.toNat / 16), hexChar (c.toNat % 16)]
  else [c]

/-- JSON string-literal encoding of a string, quotes included. -/
def stringifyString (s : String) : String :=
  String.mk ('"' :: s.data.foldr (fun c acc => stringifyChar c ++ acc) ['"'])

mutual

/-- Model of `JSON.stringify` on parsed JSON values. -/
def jsonStringify : JsonValue → String
  | .null => "null"
  | .bool true => "true"
  | .bool false => "false"
  | .num lex => lex
  | .str s => stringifyString s
  | .arr elems => "[" ++ jsonStringifyElems elems ++ "]"
  | .obj fields => "\x7b" ++ jsonStringifyFields fields ++ "\x7d"

def jsonStringifyElems : List JsonValue → String
  | [] => ""
  | [v] => jsonStringify v
  | v :: rest => jsonStringify v ++ "," ++ jsonStringifyElems rest

def jsonStringifyFields : List (String × JsonValue) → String
  | [] => ""
  | [(k, v)] => stringifyString k ++ ":" ++ jsonStringify v
  | (k, v) :: rest =>
    stringifyString k ++ ":" ++ jsonStringify v ++ "," ++ jsonStringifyFields rest

end

/-! ## The recommendation generator (`getNextSteps` service module) -/

/-- One message of the chat-completion request. -/
structure ChatMessage where
  role : String
  content : String
deriving Repr, DecidableEq

/-- The request composed by `getNextSteps` for the reasoning service. -/
structure ChatRequest where
  model : String
  messages : List ChatMessage
  temperature : ℚ
deriving Repr, DecidableEq

/-- The fixed system prompt of `getNextSteps`, verbatim from the source. -/
def systemPrompt : String :=
  "\nYou are a highly knowledgeable and empathetic educational AI assistant. " ++
  "Your goal is to provide actionable, personalized guidance to students based on " ++
  "their complete academic profile, college matches, and scholarship opportunities. " ++
  "Follow these instructions strictly:\n\n1. Input Context:\n- studentProfile: " ++
  "contains name, GPA, test scores, goals, intended major, extracurriculars, and " ++
  "other relevant info.\n- collegeMatches: a list of colleges with name, likelihood " ++
  "(reach, target, safety), net cost, and details.\n- scholarships: a list of " ++
  "scholarships with title, amount, deadline, and description.\n\n2. Output Format " ++
  "(JSON):\n\x7b\n  \"nextSteps\": [\n    \x7b\n      \"task\": \"Step 1: Highest " ++
  "priority action with specific details\"\n    \x7d,\n    \x7b\n      \"task\": " ++
  "\"Step 2: Secondary action with specific details\"\n    \x7d,\n    \x7b\n      " ++
  "\"task\": \"Step 3: Tertiary action with specific details\"\n    \x7d\n  ]\n\x7d" ++
  "\n\n3. Behavior Rules:\n- Provide exactly 3 numbered action steps (1., 2., 3.)\n" ++
  "- Each step should be 1-2 sentences, actionable and prioritized\n- Prioritize " ++
  "actions based on eligibility, deadlines, and likelihood\n- Give concrete advice; " ++
  "avoid vague recommendations\n- Personalize suggestions based on the student " ++
  "profile and goals\n- Use friendly, motivating language\n- Focus on college prep, " ++
  "scholarship strategy, and career prep\n\n4. If data is missing, make reasonable " ++
  "assumptions and indicate them.\n"

/-- The user message of the request: the three inputs serialized verbatim. -/
def userMessage (studentProfile collegeMatches scholarships : JsonValue) : String :=
  "\nstudentProfile: " ++ jsonStringify studentProfile ++
  "\ncollegeMatches: " ++ jsonStringify collegeMatches ++
  "\nscholarships: " ++ jsonStringify scholarships ++ "\n"

/-- The full chat-completion request composed by `getNextSteps`. -/
def mkRequest (studentProfile collegeMatches scholarships : JsonValue) : ChatRequest :=
  { model := "gpt-4o-mini"
    messages := [⟨"system", systemPrompt⟩,
                 ⟨"user", userMessage studentProfile collegeMatches scholarships⟩]
    temperature := 7 / 10 }

/-- The message object of one completion choice; `content` is the raw text
body, `none` modelling a `null` content. -/
structure RespMessage where
  content : Option String
deriving Repr, DecidableEq

/-- One completion choice of the service response. -/
structure RespChoice where
  message : RespMessage
deriving Repr, DecidableEq

/-- A transport-level-successful response of the reasoning service. -/
structure RespBody where
  choices : List RespChoice
deriving Repr, DecidableEq

/-- Outcome of the awaited service call: a response object, or a thrown
fault carrying its message. -/
inductive ServiceOutcome where
  | ok (response : RespBody)
  | thrown (message : String)
deriving Repr, DecidableEq

/-- Console diagnostics emitted by `getNextSteps`. -/
inductive LogEntry where
  | warn (message : String)
  | error (message : String)
deriving Repr, DecidableEq

/-- Result of `getNextSteps`: on the non-thrown paths the function returns a
JavaScript value (the `nextSteps` field, an empty array, or the fallback
array); on the caught-fault path it returns the object `\x7berror: message\x7d`. -/
inductive GenResult where
  | value (v : JsonValue)
  | errorDescriptor (message : String)
deriving Repr, DecidableEq

/-- The fixed three fallback steps substituted when parsing fails. -/
def fallbackList : List JsonValue :=
  [ .obj [("task", .str "Complete your college applications early to meet deadlines")],
    .obj [("task", .str "Research and apply for scholarships that match your profile")],
    .obj [("task", .str "Prepare for college entrance exams and improve your test scores")] ]

/-- The fallback steps as the array value the code returns. -/
def fallbackSteps : JsonValue := .arr fallbackList

/-- The text of the `console.warn` diagnostic on the fallback path. -/
def invalidJsonWarning : String := "GPT returned invalid JSON, returning fallback steps"

/-- The argument `JSON.parse` receives: the content string itself, or the
string `"null"` when the content is `null` (JavaScript stringifies the
argument). -/
def contentText : Option String → String
  | some s => s
  | none => "null"

/-- The inner parse-and-normalize block of `getNextSteps`: parse the content
as JSON and return `parsed.nextSteps || []`; any throw inside the block
(parse failure, or property access on a `null` parse result) is caught and
replaced by the fallback steps plus a warning. -/
def normalizeContent (content : Option String) : JsonValue × List LogEntry :=
  match jsonParse (contentText content) with
  | none => (fallbackSteps, [.warn invalidJsonWarning])
  | some parsed =>
    match jsGetField parsed "nextSteps" with
    | .error _ => (fallbackSteps, [.warn invalidJsonWarning])
    | .ok (some w) => if truthy w then (w, []) else (.arr [], [])
    | .ok none => (.arr [], [])

/-- The engine message of the `TypeError` raised by
`response.choices[0].message` when `choices` is empty. -/
def undefinedMessageError : String :=
  "Cannot read properties of undefined (reading 'message')"

/-- Shallow embedding of `getNextSteps` from the awaited service call on:
a thrown fault is caught by the outer handler and converted to
`\x7berror: err.message\x7d`; an empty `choices` array makes the property read
throw, which the same outer handler catches; otherwise the first choice's
content is normalized. -/
def getNextSteps (outcome : ServiceOutcome) : GenResult × List LogEntry :=
  match outcome with
  | .thrown msg => (.errorDescriptor msg, [.error ("Error in getNextSteps: " ++ msg)])
  | .ok resp =>
    match resp.choices with
    | [] => (.errorDescriptor undefinedMessageError,
             [.error ("Error in getNextSteps: " ++ undefinedMessageError)])
    | choice :: _ =>
      let (v, logs) := normalizeContent choice.message.content
      (.value v, logs)

/-- `getNextSteps` against a deterministic stub reasoning service: the stub
maps the composed chat request to the call's outcome. -/
def getNextStepsWith (stub : ChatRequest → ServiceOutcome)
    (studentProfile collegeMatches scholarships : JsonValue) : GenResult × List LogEntry :=
  getNextSteps (stub (mkRequest studentProfile collegeMatches scholarships))

/-! ## The `POST /next-steps` route (`routes/dashboard.js`) -/

/-- One document of the `scholarships` collection, with the fields the
route reads. -/
structure ScholarshipDoc where
  title : String
  amount : Int
  deadline : Option String
  description : String
deriving Repr, DecidableEq

/-- The backing store as the route reads it: point lookups by user id on
`user_applications` and `college_matches` (returning the found document or
`null`), and the `scholarships` collection. -/
structure Db where
  userApplications : String → Option JsonValue
  collegeMatchSnapshots : String → Option JsonValue
  scholarships : List ScholarshipDoc

/-- The parsed body of a `POST /next-steps` request; `none` models an
absent field. -/
structure NextStepsRequestBody where
  studentProfile : Option JsonValue
  collegeMatches : Option JsonValue
  scholarships : Option JsonValue
  userId : Option String

/-- Truthiness of the optional `userId` string (`""` is falsy). -/
def userIdTruthy : Option String → Bool
  | none => false
  | some u => ¬ u.isEmpty

/-- Descending insertion by `amount`, the comparison the store applies for
`sort(\x7bamount: -1\x7d)`. -/
def insertDescByAmount (d : ScholarshipDoc) : List ScholarshipDoc → List ScholarshipDoc
  | [] => [d]
  | e :: es => if e.amount < d.amount then d :: e :: es else e :: insertDescByAmount d es

/-- The `scholarships` collection sorted by `amount` descending. -/
def sortDescByAmount : List ScholarshipDoc → List ScholarshipDoc
  | [] => []
  | d :: ds => insertDescByAmount d (sortDescByAmount ds)

/-- The projection `\x7btitle, amount, deadline\x7d` the route applies to each
fetched scholarship document (an absent deadline yields no serialized
field). -/
def scholarshipContext (d : ScholarshipDoc) : JsonValue :=
  .obj ([("title", .str d.title), ("amount", .num (toString d.amount))] ++
    (match d.deadline with
     | some dl => [("deadline", .str dl)]
     | none => []))

/-- The route's context fetch when no scholarships are supplied: the top 5
highest-amount scholarship documents, each reduced to title, amount and
deadline. -/
def topScholarships (db : Db) : List JsonValue :=
  ((sortDescByAmount db.scholarships).take 5).map scholarshipContext

/-- Resolution of `studentProfile`: fetch by `userId` when absent/falsy
(`userDoc || null`), then default to `\x7b\x7d` (`studentProfile || \x7b\x7d`). -/
def resolveStudentProfile (db : Db) (body : NextStepsRequestBody) : JsonValue :=
  let sp :=
    if ¬ truthyOpt body.studentProfile ∧ userIdTruthy body.userId then
      some ((db.userApplications (body.userId.getD "")).getD .null)
    else body.studentProfile
  match sp with
  | some v => if truthy v then v else .obj []
  | none => .obj []

/-- Resolution of `collegeMatches`: fetch the cached snapshot when
absent/falsy and a `userId` is given (`cm?.matches || []`), then default to
`[]` (`collegeMatches || []`). -/
def resolveCollegeMatches (db : Db) (body : NextStepsRequestBody) : JsonValue :=
  let cm :=
    if ¬ truthyOpt body.collegeMatches ∧ userIdTruthy body.userId then
      some (match db.collegeMatchSnapshots (body.userId.getD "") with
        | none => JsonValue.arr []
        | some doc =>
          match jsGetField doc "matches" with
          | .ok (some w) => if truthy w then w else JsonValue.arr []
          | _ => JsonValue.arr [])
    else body.collegeMatches
  match cm with
  | some v => if truthy v then v else .arr []
  | none => .arr []

/-- Resolution of `scholarships`: when absent/falsy, fetch the top-5
context; otherwise use the supplied value as-is. -/
def resolveScholarships (db : Db) (body : NextStepsRequestBody) : JsonValue :=
  match body.scholarships with
  | some v => if truthy v then v else .arr (topScholarships db)
  | none => .arr (topScholarships db)

/-- The JavaScript value `res.json` serializes for the generator result:
the returned array on the non-thrown paths, the object `\x7berror: message\x7d`
on the caught-fault path. -/
def genResultToJson : GenResult → JsonValue
  | .value v => v
  | .errorDescriptor msg => .obj [("error", .str msg)]

/-- An HTTP response of the route: status code and JSON body. -/
structure RouteResponse where
  status : Nat
  body : JsonValue
deriving Repr, DecidableEq

/-- Shallow embedding of the `POST /next-steps` handler: 503 when the
database handle is unavailable; otherwise resolve the three inputs, call
`getNextSteps`, and answer 200 with `\x7bnextSteps: <result>\x7d` whatever the
result is. -/
def nextStepsRoute (db : Option Db) (stub : ChatRequest → ServiceOutcome)
    (body : NextStepsRequestBody) : RouteResponse :=
  match db with
  | none => ⟨503, .obj [("error", .str "Database service unavailable")]⟩
  | some db =>
    let profile := resolveStudentProfile db body
    let collMatches := resolveCollegeMatches db body
    let schol := resolveScholarships db body
    let (result, _) := getNextStepsWith stub profile collMatches schol
    ⟨200, .obj [("nextSteps", genResultToJson result)]⟩

/-- Modelled from the spec: the "mapped to NextStep shape (extra fields
ignored)" normalization of §4.3 as claim C6 reads it — each element of the
`nextSteps` array reduced to an object holding only its `task` field.  The
source performs no such mapping; this definition exists to be compared with
the source-derived normalizer. -/
def specStripToTask : JsonValue → JsonValue
  | .obj fields =>
    match fields.reverse.lookup "task" with
    | some t => .obj [("task", t)]
    | none => .obj []
  | _ => .obj []

/-- Modelled from the spec: the normalizer claim C6 describes, returning
the `nextSteps` array with every element stripped to its `task` field. -/
def specNormalizeMapped (content : Option String) : JsonValue × List LogEntry :=
  match normalizeContent content with
  | (.arr elems, logs) => (.arr (elems.map specStripToTask), logs)
  | other => other

/-! ## Concrete fixtures used by witnesses and counterexamples -/

/-- A request body supplying none of the four optional fields. -/
def noDataBody : NextStepsRequestBody := ⟨none, none, none, none⟩

/-- A backing store with an empty scholarship collection. -/
def emptyDb : Db := ⟨fun _ => none, fun _ => none, []⟩

/-- A backing store holding three scholarships in unsorted order. -/
def sampleDb : Db :=
  ⟨fun _ => none, fun _ => none,
   [⟨"A", 500, none, ""⟩, ⟨"B", 2000, some "2026-01-01", "desc"⟩, ⟨"C", 1000, none, ""⟩]⟩

/-- A service response whose single choice carries the given content. -/
def respWith (content : Option String) : ServiceOutcome :=
  .ok ⟨[⟨⟨content⟩⟩]⟩

/-- A well-formed body whose `nextSteps` holds a single task object. -/
def oneTaskBody : String := "\x7b\"nextSteps\":[\x7b\"task\":\"A\"\x7d]\x7d"

/-- A well-formed body whose single step carries an extra field besides
`task`. -/
def extraFieldBody : String := "\x7b\"nextSteps\":[\x7b\"task\":\"A\",\"extra\":1\x7d]\x7d"

/-- A prose body that is not valid JSON. -/
def proseBody : String := "Sure! Here are your steps: ..."

/-- Valid JSON with no `nextSteps` key. -/
def wrongShapeBody : String := "\x7b\"foo\":1\x7d"

/-! ## Helper lemmas on the descending sort -/

theorem mem_insertDescByAmount {x d : ScholarshipDoc} {l : List ScholarshipDoc}
    (h : x ∈ insertDescByAmount d l) : x = d ∨ x ∈ l := by
  induction l with
  | nil => simpa [insertDescByAmount] using h
  | cons e es ih =>
    simp only [insertDescByAmount] at h
    by_cases hc : e.amount < d.amount
    · rw [if_pos hc] at h
      simp only [List.mem_cons] at h ⊢
      tauto
    · rw [if_neg hc] at h
      simp only [List.mem_cons] at h ⊢
      rcases h with h | h
      · tauto
      · rcases ih h with h2 | h2 <;> tauto

theorem pairwise_insertDescByAmount {d : ScholarshipDoc} {l : List ScholarshipDoc}
    (h : l.Pairwise (fun a b => b.amount ≤ a.amount)) :
    (insertDescByAmount d l).Pairwise (fun a b => b.amount ≤ a.amount) := by
  induction l with
  | nil => simp [insertDescByAmount]
  | cons e es ih =>
    rcases List.pairwise_cons.mp h with ⟨he, hes⟩
    simp only [insertDescByAmount]
    by_cases hc : e.amount < d.amount
    · rw [if_pos hc]
      refine List.pairwise_cons.mpr ⟨?_, h⟩
      intro x hx
      rcases List.mem_cons.mp hx with rfl | hx
      · exact le_of_lt hc
      · exact le_trans (he x hx) (le_of_lt hc)
    · rw [if_neg hc]
      refine List.pairwise_cons.mpr ⟨?_, ih hes⟩
      intro x hx
      rcases mem_insertDescByAmount hx with rfl | hx
      · exact not_lt.mp hc
      · exact he x hx

theorem sortDescByAmount_pairwise (l : List ScholarshipDoc) :
    (sortDescByAmount l).Pairwise (fun a b => b.amount ≤ a.amount) := by
  induction l with
  | nil => simp [sortDescByAmount]
  | cons d ds ih => exact pairwise_insertDescByAmount ih

theorem length_insertDescByAmount (d : ScholarshipDoc) (l : List ScholarshipDoc) :
    (insertDescByAmount d l).length = l.length + 1 := by
  induction l with
  | nil => rfl
  | cons e es ih =>
    simp only [insertDescByAmount]
    by_cases hc : e.amount < d.amount
    · rw [if_pos hc]; simp
    · rw [if_neg hc]; simp [ih]

theorem length_sortDescByAmount (l : List ScholarshipDoc) :
    (sortDescByAmount l).length = l.length := by
  induction l with
  | nil => rfl
  | cons d ds ih => simp [sortDescByAmount, length_insertDescByAmount, ih]

/-! ## Claim theorems -/

/-- C2: whenever the response content is not parseable as JSON, the
normalizer inside `getNextSteps` returns the fixed 3-item fallback sequence
(not an error descriptor) together with the warning diagnostic, attempting
no partial recovery. -/
theorem fallback_on_unparseable_content (c : RespChoice) (cs : List RespChoice)
    (h : jsonParse (contentText c.message.content) = none) :
    getNextSteps (.ok ⟨c :: cs⟩) =
      (.value fallbackSteps, [.warn invalidJsonWarning]) ∧
    fallbackList.length = 3 := by
  constructor
  · simp [getNextSteps, normalizeContent, h]
  · rfl

/-- Witness for C2 at the prose body from the spec. -/
theorem fallback_on_unparseable_content_witness :
    jsonParse (contentText (some proseBody)) = none ∧
    (getNextSteps (.ok ⟨[⟨⟨some proseBody⟩⟩]⟩) =
      (.value fallbackSteps, [.warn invalidJsonWarning]) ∧
     fallbackList.length = 3) :=
  ⟨rfl, fallback_on_unparseable_content ⟨⟨some proseBody⟩⟩ [] rfl⟩

/-- C3: every fault thrown by the service call is caught; `getNextSteps`
returns an error descriptor carrying exactly the fault's message, and logs
it. -/
theorem error_descriptor_on_thrown_fault (msg : String) :
    getNextSteps (.thrown msg) =
      (.errorDescriptor msg, [.error ("Error in getNextSteps: " ++ msg)]) :=
  rfl

/-- C4 counterexample: the body `"null"` parses as valid JSON and its
parsed value has no `nextSteps` field, yet the normalizer returns the
3-item fallback (the property access on `null` throws inside the inner
`try`), not the empty sequence the claim requires. -/
theorem null_body_returns_fallback :
    jsonParse (contentText (some "null")) = some JsonValue.null ∧
    jsGetField JsonValue.null "nextSteps" = Except.error () ∧
    getNextSteps (respWith (some "null")) =
      (.value fallbackSteps, [.warn invalidJsonWarning]) ∧
    fallbackSteps ≠ JsonValue.arr [] :=
  ⟨rfl, rfl, rfl, by decide⟩

/-- C4 amended: for every response content parsing to a value on which the
`nextSteps` property read yields `undefined` (every non-`null` parsed value
with no such field), the normalizer returns the empty sequence — which is
distinct from the fallback — and no error; content parsing to `null` takes
the fallback path instead. -/
theorem empty_array_on_missing_nextSteps (c : RespChoice) (cs : List RespChoice)
    (parsed : JsonValue)
    (hp : jsonParse (contentText c.message.content) = some parsed)
    (hf : jsGetField parsed "nextSteps" = .ok none) :
    getNextSteps (.ok ⟨c :: cs⟩) = (.value (.arr []), []) ∧
    JsonValue.arr [] ≠ fallbackSteps := by
  constructor
  · simp [getNextSteps, normalizeContent, hp, hf]
  · decide

/-- Witness for the amended C4 at a valid-JSON body without `nextSteps`. -/
theorem empty_array_on_missing_nextSteps_witness :
    jsonParse (contentText (some wrongShapeBody)) =
      some (JsonValue.obj [("foo", JsonValue.num "1")]) ∧
    jsGetField (JsonValue.obj [("foo", JsonValue.num "1")]) "nextSteps" =
      Except.ok none ∧
    (getNextSteps (.ok ⟨[⟨⟨some wrongShapeBody⟩⟩]⟩) = (.value (.arr []), []) ∧
     JsonValue.arr [] ≠ fallbackSteps) :=
  ⟨rfl, rfl,
   empty_array_on_missing_nextSteps ⟨⟨some wrongShapeBody⟩⟩ []
     (JsonValue.obj [("foo", JsonValue.num "1")]) rfl rfl⟩

/-- C5: whenever the parsed content's `nextSteps` field is an array of
`\x7btask\x7d` objects, the normalizer returns exactly that array, in order and
unpadded, so its length equals the input's length. -/
theorem nextSteps_task_array_verbatim (c : RespChoice) (cs : List RespChoice)
    (parsed : JsonValue) (tasks : List String)
    (hp : jsonParse (contentText c.message.content) = some parsed)
    (hf : jsGetField parsed "nextSteps" =
      .ok (some (.arr (tasks.map (fun t => .obj [("task", .str t)]))))) :
    getNextSteps (.ok ⟨c :: cs⟩) =
      (.value (.arr (tasks.map (fun t => .obj [("task", .str t)]))), []) ∧
    (tasks.map (fun t => JsonValue.obj [("task", JsonValue.str t)])).length =
      tasks.length := by
  constructor
  · simp [getNextSteps, normalizeContent, hp, hf, truthy]
  · simp

/-- Witness for C5 at the 1-item body from the spec. -/
theorem nextSteps_task_array_verbatim_witness :
    jsonParse (contentText (some oneTaskBody)) =
      some (JsonValue.obj
        [("nextSteps", JsonValue.arr [JsonValue.obj [("task", JsonValue.str "A")]])]) ∧
    jsGetField (JsonValue.obj
        [("nextSteps", JsonValue.arr [JsonValue.obj [("task", JsonValue.str "A")]])])
        "nextSteps" =
      Except.ok (some (JsonValue.arr
        (["A"].map (fun t => JsonValue.obj [("task", JsonValue.str t)])))) ∧
    (getNextSteps (.ok ⟨[⟨⟨some oneTaskBody⟩⟩]⟩) =
      (.value (.arr (["A"].map (fun t => JsonValue.obj [("task", JsonValue.str t)]))),
       []) ∧
     (["A"].map (fun t => JsonValue.obj [("task", JsonValue.str t)])).length =
       ["A"].length) :=
  ⟨rfl, rfl,
   nextSteps_task_array_verbatim ⟨⟨some oneTaskBody⟩⟩ []
     (JsonValue.obj
       [("nextSteps", JsonValue.arr [JsonValue.obj [("task", JsonValue.str "A")]])])
     ["A"] rfl rfl⟩

/-- C6 counterexample: on a body whose step carries an extra field besides
`task`, the normalizer returns the array verbatim with the extra field
kept, which differs from the spec-modelled mapped-to-NextStep-shape
result. -/
theorem extra_fields_not_stripped :
    (normalizeContent (some extraFieldBody)).1 =
      .arr [.obj [("task", .str "A"), ("extra", .num "1")]] ∧
    (specNormalizeMapped (some extraFieldBody)).1 =
      .arr [.obj [("task", .str "A")]] ∧
    (normalizeContent (some extraFieldBody)).1 ≠
      (specNormalizeMapped (some extraFieldBody)).1 :=
  ⟨rfl, rfl, by decide⟩

/-- C6 amended: whenever the parsed content has a `nextSteps` array field,
the normalizer returns that array verbatim — elements are not mapped to
NextStep shape and extra fields are not stripped. -/
theorem nextSteps_array_returned_unmapped (c : RespChoice) (cs : List RespChoice)
    (parsed : JsonValue) (elems : List JsonValue)
    (hp : jsonParse (contentText c.message.content) = some parsed)
    (hf : jsGetField parsed "nextSteps" = .ok (some (.arr elems))) :
    getNextSteps (.ok ⟨c :: cs⟩) = (.value (.arr elems), []) := by
  simp [getNextSteps, normalizeContent, hp, hf, truthy]

/-- Witness for the amended C6 at the extra-field body. -/
theorem nextSteps_array_returned_unmapped_witness :
    jsonParse (contentText (some extraFieldBody)) =
      some (JsonValue.obj
        [("nextSteps", JsonValue.arr
          [JsonValue.obj [("task", JsonValue.str "A"), ("extra", JsonValue.num "1")]])]) ∧
    jsGetField (JsonValue.obj
        [("nextSteps", JsonValue.arr
          [JsonValue.obj [("task", JsonValue.str "A"), ("extra", JsonValue.num "1")]])])
        "nextSteps" =
      Except.ok (some (JsonValue.arr
        [JsonValue.obj [("task", JsonValue.str "A"), ("extra", JsonValue.num "1")]])) ∧
    getNextSteps (.ok ⟨[⟨⟨some extraFieldBody⟩⟩]⟩) =
      (.value (.arr
        [JsonValue.obj [("task", JsonValue.str "A"), ("extra", JsonValue.num "1")]]),
       []) :=
  ⟨rfl, rfl,
   nextSteps_array_returned_unmapped ⟨⟨some extraFieldBody⟩⟩ []
     (JsonValue.obj
       [("nextSteps", JsonValue.arr
         [JsonValue.obj [("task", JsonValue.str "A"), ("extra", JsonValue.num "1")]])])
     [JsonValue.obj [("task", JsonValue.str "A"), ("extra", JsonValue.num "1")]]
     rfl rfl⟩

/-- C1 counterexample: on the well-formed 1-item body, `getNextSteps` takes
a non-error path yet returns a 1-element sequence, so a non-error result
need not have length exactly 3. -/
theorem nextSteps_short_success_path :
    (getNextSteps (respWith (some oneTaskBody))).1 =
      .value (.arr [.obj [("task", .str "A")]]) ∧
    [JsonValue.obj [("task", JsonValue.str "A")]].length = 1 :=
  ⟨rfl, rfl⟩

/-- C1 amended: every result of `getNextSteps` is an error descriptor or a
returned value; the value is the 3-item fallback exactly on the
parse-failure path, while on a successful parse it is the `nextSteps`
field verbatim (any length) or the empty sequence. -/
theorem getNextSteps_three_or_error_trichotomy (outcome : ServiceOutcome) :
    (∃ m, (getNextSteps outcome).1 = .errorDescriptor m) ∨
    ((getNextSteps outcome).1 = .value fallbackSteps ∧ fallbackList.length = 3) ∨
    (∃ c cs parsed, outcome = .ok ⟨c :: cs⟩ ∧
      jsonParse (contentText c.message.content) = some parsed ∧
      ((∃ w, jsGetField parsed "nextSteps" = .ok (some w) ∧ truthy w = true ∧
          (getNextSteps outcome).1 = .value w) ∨
       (getNextSteps outcome).1 = .value (.arr []))) := by
  rcases outcome with ⟨choices⟩ | m
  · rcases choices with _ | ⟨c, cs⟩
    · exact Or.inl ⟨undefinedMessageError, rfl⟩
    · rcases hp : jsonParse (contentText c.message.content) with _ | parsed
      · refine Or.inr (Or.inl ⟨?_, rfl⟩)
        simp [getNextSteps, normalizeContent, hp]
      · rcases hf : jsGetField parsed "nextSteps" with e | w
        · refine Or.inr (Or.inl ⟨?_, rfl⟩)
          simp [getNextSteps, normalizeContent, hp, hf]
        · rcases w with _ | w
          · refine Or.inr (Or.inr ⟨c, cs, parsed, rfl, hp, Or.inr ?_⟩)
            simp [getNextSteps, normalizeContent, hp, hf]
          · by_cases ht : truthy w
            · refine Or.inr (Or.inr ⟨c, cs, parsed, rfl, hp, Or.inl ⟨w, hf, ht, ?_⟩⟩)
              simp [getNextSteps, normalizeContent, hp, hf, ht]
            · refine Or.inr (Or.inr ⟨c, cs, parsed, rfl, hp, Or.inr ?_⟩)
              simp [getNextSteps, normalizeContent, hp, hf, ht]
  · exact Or.inl ⟨m, rfl⟩

/-- C7 counterexample: with no caller data, no user identifier and an empty
scholarship collection, the aggregation resolves scholarships to the empty
sequence, so the resolved scholarships sequence is not always non-empty. -/
theorem empty_store_gives_empty_scholarships :
    resolveStudentProfile emptyDb noDataBody = .obj [] ∧
    resolveCollegeMatches emptyDb noDataBody = .arr [] ∧
    resolveScholarships emptyDb noDataBody = .arr [] :=
  ⟨rfl, rfl, rfl⟩

/-- C7 amended: with no caller data and no user identifier, the aggregation
resolves to the empty-object profile, the empty match sequence and, when
the scholarship collection is non-empty, a non-empty sequence of at most 5
scholarship contexts (title, amount, deadline only) sorted by amount
descending. -/
theorem aggregation_defaults_with_nonempty_store (db : Db)
    (h : db.scholarships ≠ []) :
    resolveStudentProfile db noDataBody = .obj [] ∧
    resolveCollegeMatches db noDataBody = .arr [] ∧
    ∃ docs : List ScholarshipDoc,
      resolveScholarships db noDataBody = .arr (docs.map scholarshipContext) ∧
      docs ≠ [] ∧ docs.length ≤ 5 ∧
      docs.Pairwise (fun a b => b.amount ≤ a.amount) := by
  refine ⟨rfl, rfl, (sortDescByAmount db.scholarships).take 5, rfl, ?_, ?_, ?_⟩
  · intro hnil
    have hlen : ((sortDescByAmount db.scholarships).take 5).length = 0 := by
      rw [hnil]; rfl
    rw [List.length_take, length_sortDescByAmount] at hlen
    have hpos : 0 < db.scholarships.length := List.length_pos.mpr h
    omega
  · simp [List.length_take]
  · exact (sortDescByAmount_pairwise db.scholarships).sublist
      (List.take_sublist 5 (sortDescByAmount db.scholarships))

/-- Witness for the amended C7 at a three-scholarship store. -/
theorem aggregation_defaults_with_nonempty_store_witness :
    sampleDb.scholarships ≠ [] ∧
    (resolveStudentProfile sampleDb noDataBody = .obj [] ∧
     resolveCollegeMatches sampleDb noDataBody = .arr [] ∧
     ∃ docs : List ScholarshipDoc,
       resolveScholarships sampleDb noDataBody = .arr (docs.map scholarshipContext) ∧
       docs ≠ [] ∧ docs.length ≤ 5 ∧
       docs.Pairwise (fun a b => b.amount ≤ a.amount)) :=
  ⟨by decide, aggregation_defaults_with_nonempty_store sampleDb (by decide)⟩

/-- C8: the route does not map a generator error descriptor to a
service-unavailable response — it answers 200 and embeds the raw provider
error text in the body, contradicting the spec's caller-layer
requirement. -/
theorem route_leaks_provider_error :
    nextStepsRoute (some sampleDb) (fun _ => .thrown "boom") noDataBody =
      ⟨200, .obj [("nextSteps", .obj [("error", .str "boom")])]⟩ ∧
    (nextStepsRoute (some sampleDb) (fun _ => .thrown "boom") noDataBody).status ≠
      503 :=
  ⟨rfl, by decide⟩

/-- C9: against any deterministic stub reasoning service, `getNextSteps` is
deterministic — equal profile, match and scholarship inputs give equal
results. -/
theorem getNextSteps_deterministic (stub : ChatRequest → ServiceOutcome)
    (p1 m1 s1 p2 m2 s2 : JsonValue)
    (hp : p1 = p2) (hm : m1 = m2) (hs : s1 = s2) :
    getNextStepsWith stub p1 m1 s1 = getNextStepsWith stub p2 m2 s2 := by
  rw [hp, hm, hs]

/-- Witness for C9 at a constant stub and concrete inputs. -/
theorem getNextSteps_deterministic_witness :
    JsonValue.obj [] = JsonValue.obj [] ∧
    JsonValue.arr [] = JsonValue.arr [] ∧
    JsonValue.arr [] = JsonValue.arr [] ∧
    getNextStepsWith (fun _ => .thrown "fault") (.obj []) (.arr []) (.arr []) =
      getNextStepsWith (fun _ => .thrown "fault") (.obj []) (.arr []) (.arr []) :=
  ⟨rfl, rfl, rfl,
   getNextSteps_deterministic (fun _ => .thrown "fault")
     (.obj []) (.arr []) (.arr []) (.obj []) (.arr []) (.arr []) rfl rfl rfl⟩

/-- C10 counterexample: a response whose single choice has `null` content
does not produce an error descriptor — `JSON.parse` stringifies the `null`
content, parses it to `null`, the property read throws inside the inner
`try`, and the 3-item fallback is returned. -/
theorem null_content_takes_fallback_path :
    getNextSteps (respWith none) =
      (.value fallbackSteps, [.warn invalidJsonWarning]) ∧
    GenResult.value fallbackSteps ≠ GenResult.errorDescriptor undefinedMessageError :=
  ⟨rfl, by decide⟩

/-- C10 amended: a response with an empty `choices` array makes the
property read throw past the inner `try`, so the outer handler returns an
error descriptor; but a choice with `null` content takes the inner
structural-failure path and yields the 3-item fallback, not an error. -/
theorem degenerate_response_paths (cs : List RespChoice) :
    getNextSteps (.ok ⟨[]⟩) =
      (.errorDescriptor undefinedMessageError,
       [.error ("Error in getNextSteps: " ++ undefinedMessageError)]) ∧
    getNextSteps (.ok ⟨⟨⟨none⟩⟩ :: cs⟩) =
      (.value fallbackSteps, [.warn invalidJsonWarning]) :=
  ⟨rfl, rfl⟩

end Scholargy
